import Mathlib

/-!
Verification of the event-dispatch core of the T text editor.

The embedding below follows src/main.go (the dispatch loop `poll` and its
helpers `mouseEvent`, `keyEvent`, `dirKey`, `modKey`, `bufTex`) and the Row
contract documented in src/ui/row.go.  Calls into the `ui.Win` widget tree
and effects on the host surface are recorded as explicit action values, since
the tree and the host surface are external collaborators of the dispatch
loop.  Machine integers of the source (Go int, int32, rune) are modelled as
Int; float coordinates of mouse events are modelled after their truncation
to int, which is the only form the dispatch code uses.
-/

namespace T

/-- 2-D integer point, after Go image.Point. -/
structure Point where
  x : Int
  y : Int
deriving DecidableEq, Repr

/-- Go image.Point.Mul: scale both coordinates. -/
def Point.mul (p : Point) (k : Int) : Point := ⟨p.x * k, p.y * k⟩

/-- Go image.ZP, the zero point. -/
def zp : Point := ⟨0, 0⟩

/-! Platform event vocabulary, after golang.org/x/mobile/event.  The numeric
values are those of the x/mobile packages. -/

/-- mouse.ButtonNone. -/
def buttonNone : Int := 0
/-- mouse.ButtonLeft. -/
def buttonLeft : Int := 1
/-- mouse.ButtonMiddle. -/
def buttonMiddle : Int := 2
/-- mouse.ButtonRight. -/
def buttonRight : Int := 3
/-- mouse.ButtonWheelUp, the wheel rolling up. -/
def buttonWheelUp : Int := -1
/-- mouse.ButtonWheelDown, the wheel rolling down. -/
def buttonWheelDown : Int := -2
/-- mouse.ButtonWheelLeft. -/
def buttonWheelLeft : Int := -3
/-- mouse.ButtonWheelRight. -/
def buttonWheelRight : Int := -4

/-- mouse.Direction: none, press, release, or step (a simultaneous press and
release, the form in which a single wheel step is delivered). -/
inductive MouseDir
  | dirNone
  | dirPress
  | dirRelease
  | dirStep
deriving DecidableEq, Repr

/-- mouse.Event, with coordinates already truncated to int as by
image.Pt(int(e.X), int(e.Y)) in mouseEvent. -/
structure MouseEvent where
  x : Int
  y : Int
  button : Int
  direction : MouseDir
deriving DecidableEq, Repr

/-- key.Direction. -/
inductive KeyDir
  | dirNone
  | dirPress
  | dirRelease
deriving DecidableEq, Repr

/-- key.Event.  rune is the Go rune (int32), negative (-1) for keys with no
glyph; code is the USB HID key code; modifiers is the modifier bitmask. -/
structure KeyEvent where
  rune : Int
  code : Nat
  modifiers : Nat
  direction : KeyDir
deriving DecidableEq, Repr

/-- key.CodeReturnEnter. -/
def codeReturnEnter : Nat := 40
/-- key.CodeDeleteBackspace. -/
def codeDeleteBackspace : Nat := 42
/-- key.CodeHome. -/
def codeHome : Nat := 74
/-- key.CodePageUp. -/
def codePageUp : Nat := 75
/-- key.CodeDeleteForward. -/
def codeDeleteForward : Nat := 76
/-- key.CodeEnd. -/
def codeEnd : Nat := 77
/-- key.CodePageDown. -/
def codePageDown : Nat := 78
/-- key.CodeRightArrow. -/
def codeRightArrow : Nat := 79
/-- key.CodeLeftArrow. -/
def codeLeftArrow : Nat := 80
/-- key.CodeDownArrow. -/
def codeDownArrow : Nat := 81
/-- key.CodeUpArrow. -/
def codeUpArrow : Nat := 82
/-- key.CodeLeftShift. -/
def codeLeftShift : Nat := 225
/-- key.CodeLeftAlt. -/
def codeLeftAlt : Nat := 226

/-- key.ModShift. -/
def modShift : Nat := 1
/-- key.ModControl. -/
def modControl : Nat := 2
/-- key.ModAlt. -/
def modAlt : Nat := 4
/-- key.ModMeta. -/
def modMeta : Nat := 8

/-- A call made by the dispatch loop into the ui.Win widget tree (the Row
contract of src/ui/row.go lifted to the window).  The Boolean results of
these calls are discarded by main.go, so only the calls themselves are
recorded. -/
inductive Call
  | wheel (pt : Point) (x y : Int)
  | move (pt : Point)
  | click (pt : Point) (button : Int)
  | dir (x y : Int)
  | mod (m : Int)
  | rune (r : Int)
  | focus (f : Bool)
  | resize (size : Point)
  | draw (dirty : Bool)
deriving DecidableEq, Repr

/-- src/main.go mouseEvent: routes one mouse event into the widget tree.
The Go switch tests the wheel buttons first, then the direction. -/
def mouseEvent (e : MouseEvent) : List Call :=
  let pt : Point := ⟨e.x, e.y⟩
  if e.button = buttonWheelUp then [Call.wheel pt 0 1]
  else if e.button = buttonWheelDown then [Call.wheel pt 0 (-1)]
  else if e.button = buttonWheelLeft then [Call.wheel pt (-1) 0]
  else if e.button = buttonWheelRight then [Call.wheel pt 1 0]
  else match e.direction with
    | MouseDir.dirNone => [Call.move pt]
    | MouseDir.dirPress => [Call.click pt e.button]
    | MouseDir.dirRelease => [Call.click pt (-e.button)]
    | MouseDir.dirStep => [Call.click pt e.button, Call.click pt (-e.button)]

/-- The 4-flag modifier state of src/main.go poll (`var mods [4]bool`):
index 0 is unused, 1 is shift, 2 is alt, 3 is control-or-meta. -/
structure Mods where
  m0 : Bool
  m1 : Bool
  m2 : Bool
  m3 : Bool
deriving DecidableEq, Repr

/-- Look up a modifier flag by index 0..3 (indices above 3 read false). -/
def Mods.get (ms : Mods) : Nat → Bool
  | 0 => ms.m0
  | 1 => ms.m1
  | 2 => ms.m2
  | 3 => ms.m3
  | _ => false

/-- The initial modifier state of poll: all flags false. -/
def mods0 : Mods := ⟨false, false, false, false⟩

/-- The new modifier vector computed at the top of src/main.go modKey from
the modifiers bitmask of the key event.  Flag 0 is never set. -/
def newMods (e : KeyEvent) : Mods :=
  { m0 := false
    m1 := e.modifiers &&& modShift != 0
    m2 := e.modifiers &&& modAlt != 0
    m3 := (e.modifiers &&& modMeta != 0) || (e.modifiers &&& modControl != 0) }

/-- src/main.go modKey: scans indices 0..3 for the first flag whose new value
differs from the stored one, forwards Mod(i) or Mod(-i) for that index, then
assigns the whole new vector and breaks out of the loop.  (At index 0 the Go
code computes m := 0 and negates it to -0 on release, so the argument is 0
either way; that branch mirrors the source even though flag 0 never becomes
true from the initial state.) -/
def modKey (mods : Mods) (e : KeyEvent) : Mods × List Call :=
  let nm := newMods e
  if nm.m0 ≠ mods.m0 then (nm, [Call.mod (if nm.m0 then 0 else 0)])
  else if nm.m1 ≠ mods.m1 then (nm, [Call.mod (if nm.m1 then 1 else -1)])
  else if nm.m2 ≠ mods.m2 then (nm, [Call.mod (if nm.m2 then 2 else -2)])
  else if nm.m3 ≠ mods.m3 then (nm, [Call.mod (if nm.m3 then 3 else -3)])
  else (mods, [])

/-- src/main.go dirKeyCode: the set of key codes dispatched as Dir events. -/
def dirKeyCode (c : Nat) : Bool :=
  c == codeUpArrow || c == codeDownArrow || c == codeLeftArrow ||
  c == codeRightArrow || c == codePageUp || c == codePageDown ||
  c == codeHome || c == codeEnd

/-- src/main.go dirKey: maps a directional key code to the Dir call.
-32768 and 32767 are math.MinInt16 and math.MaxInt16.  The final branch is
a Go panic marked impossible; it is unreachable because keyEvent guards the
call with dirKeyCode. -/
def dirKey (e : KeyEvent) : List Call :=
  if e.code = codeUpArrow then [Call.dir 0 (-1)]
  else if e.code = codeDownArrow then [Call.dir 0 1]
  else if e.code = codeLeftArrow then [Call.dir (-1) 0]
  else if e.code = codeRightArrow then [Call.dir 1 0]
  else if e.code = codePageUp then [Call.dir 0 (-2)]
  else if e.code = codePageDown then [Call.dir 0 2]
  else if e.code = codeHome then [Call.dir 0 (-32768)]
  else if e.code = codeEnd then [Call.dir 0 32767]
  else []

/-- The first statement of src/main.go keyEvent: an event with no direction
is treated as a press. -/
def normDir (e : KeyEvent) : KeyEvent :=
  if e.direction = KeyDir.dirNone then { e with direction := KeyDir.dirPress }
  else e

/-- The switch in src/main.go keyEvent that rewrites the rune in place:
backspace becomes the control rune 8, forward delete the control rune 127,
and carriage return (13) becomes newline (10); only the first matching case
of the Go switch applies. -/
def rewriteRune (e : KeyEvent) : KeyEvent :=
  if e.code = codeDeleteBackspace then { e with rune := 8 }
  else if e.code = codeDeleteForward then { e with rune := 127 }
  else if e.rune = 13 then { e with rune := 10 }
  else e

/-- src/main.go keyEvent: a DirNone event is first turned into a press
(normDir); presses of directional codes go to dirKey; otherwise the rune is
rewritten in place (rewriteRune); a positive rune is forwarded to Rune on
press only; all remaining events go to modKey.  Returns the updated
modifier state and the forwarded calls.  The staged lets mirror the Go
code's in-place mutation of its event argument. -/
def keyEvent (mods : Mods) (e0 : KeyEvent) : Mods × List Call :=
  let e1 := normDir e0
  if e1.direction = KeyDir.dirPress ∧ dirKeyCode e1.code then (mods, dirKey e1)
  else
    let e2 := rewriteRune e1
    if 0 < e2.rune then
      (mods, if e2.direction = KeyDir.dirPress then [Call.rune e2.rune] else [])
    else
      modKey mods e2

/-! The poll event loop of src/main.go, as a step function on an explicit
state.  The heterogeneous channel delivers the event vocabulary below; the
Boolean returned by w.win.Tick() is supplied with the tick notification,
since the ui.Win tree is an external collaborator whose reply the loop
branches on. -/

/-- lifecycle.Stage. -/
inductive Stage
  | dead
  | alive
  | visible
  | focused
deriving DecidableEq, Repr

/-- One notification taken from the event channel by poll. -/
inductive Event
  | done
  | tick (winTick : Bool)
  | lifecycle (stage : Stage)
  | size (sz : Point)
  | paint
  | mouse (e : MouseEvent)
  | key (e : KeyEvent)
deriving DecidableEq, Repr

/-- An observable action of one iteration of poll: a call into the widget
tree, a self-sent paint request, context cancellation, resource release and
allocation, or the texture upload and publish of a paint cycle. -/
inductive Act
  | call (c : Call)
  | sendPaint
  | cancel
  | releaseBuf
  | releaseTex
  | releaseWindow
  | closeDone
  | alloc (sz : Point)
  | upload
  | publish
deriving DecidableEq, Repr

/-- The mutable state of the poll loop: the modifier vector, the dirty flag,
the current window size, and the allocation sizes of the pixel buffer and
texture pair (the bounds with which bufTex created them). -/
structure PollState where
  mods : Mods
  dirty : Bool
  size : Point
  bufCap : Point
  texCap : Point
  cancelled : Bool
  doneClosed : Bool
deriving DecidableEq, Repr

/-- src/main.go bufTex: allocates the buffer and texture pair at the given
size; the result records the bounds (capacities) of the two allocations. -/
def bufTex (sz : Point) : Point × Point := (sz, sz)

/-- The state on entry to poll: modifiers all false, dirty true, and the
buffer and texture freshly allocated at the initial window size. -/
def initState (sz : Point) : PollState :=
  { mods := mods0
    dirty := true
    size := sz
    bufCap := (bufTex sz).1
    texCap := (bufTex sz).2
    cancelled := false
    doneClosed := false }

/-- One iteration of the poll loop of src/main.go: dispatch a single event,
returning the next state and the actions performed, in order.  On done the
loop releases the buffer, texture and window, closes the done channel and
returns.  A tick enqueues a paint request iff the tree reported a change.
A dead lifecycle stage cancels; other stages forward Focus.  A resize of
the exact zero point cancels; otherwise the new size is applied, the dirty
flag raised, and the buffer and texture reallocated at twice the requested
size when either dimension exceeds the texture bounds.  A paint draws with
the current dirty flag, clears it, uploads and publishes. -/
def step (s : PollState) : Event → PollState × List Act
  | Event.done =>
      ({ s with doneClosed := true },
        [Act.releaseBuf, Act.releaseTex, Act.releaseWindow, Act.closeDone])
  | Event.tick b => (s, if b then [Act.sendPaint] else [])
  | Event.lifecycle stage =>
      if stage = Stage.dead then ({ s with cancelled := true }, [Act.cancel])
      else (s, [Call.focus (stage == Stage.focused) |> Act.call])
  | Event.size sz =>
      if sz = zp then ({ s with cancelled := true }, [Act.cancel])
      else
        let s := { s with size := sz, dirty := true }
        if s.texCap.x < sz.x ∨ s.texCap.y < sz.y then
          ({ s with bufCap := (bufTex (sz.mul 2)).1, texCap := (bufTex (sz.mul 2)).2 },
            [Act.call (Call.resize sz), Act.releaseTex, Act.releaseBuf,
              Act.alloc (sz.mul 2)])
        else (s, [Act.call (Call.resize sz)])
  | Event.paint =>
      ({ s with dirty := false },
        [Act.call (Call.draw s.dirty), Act.upload, Act.publish])
  | Event.mouse e => (s, (mouseEvent e).map Act.call)
  | Event.key e =>
      let r := keyEvent s.mods e
      ({ s with mods := r.1 }, r.2.map Act.call)

/-- Run the poll loop over a list of events in arrival order, concatenating
the actions.  After a done event the Go loop has returned, so no further
event is processed. -/
def run (s : PollState) : List Event → PollState × List Act
  | [] => (s, [])
  | e :: es =>
      if s.doneClosed then (s, [])
      else
        let r := step s e
        let r2 := run r.1 es
        (r2.1, r.2 ++ r2.2)

/-! Helper lemmas on the shapes of the call lists produced by the
dispatch helpers. -/

/-- Every call forwarded by modKey is a Mod call. -/
theorem modKey_mem_mod (mods : Mods) (e : KeyEvent) (c : Call)
    (h : c ∈ (modKey mods e).2) : ∃ m, c = Call.mod m := by
  simp only [modKey] at h
  split at h
  · exact ⟨_, by simpa using h⟩
  · split at h
    · exact ⟨_, by simpa using h⟩
    · split at h
      · exact ⟨_, by simpa using h⟩
      · split at h
        · exact ⟨_, by simpa using h⟩
        · simp at h

/-- Every call forwarded by dirKey is a Dir call with exactly one of the two
arguments non-zero. -/
theorem dirKey_mem_dir (e : KeyEvent) (c : Call) (h : c ∈ dirKey e) :
    ∃ x y, c = Call.dir x y ∧ ((x = 0 ∧ y ≠ 0) ∨ (x ≠ 0 ∧ y = 0)) := by
  unfold dirKey at h
  split at h
  · exact ⟨_, _, by simpa using h, by decide⟩
  · split at h
    · exact ⟨_, _, by simpa using h, by decide⟩
    · split at h
      · exact ⟨_, _, by simpa using h, by decide⟩
      · split at h
        · exact ⟨_, _, by simpa using h, by decide⟩
        · split at h
          · exact ⟨_, _, by simpa using h, by decide⟩
          · split at h
            · exact ⟨_, _, by simpa using h, by decide⟩
            · split at h
              · exact ⟨_, _, by simpa using h, by decide⟩
              · split at h
                · exact ⟨_, _, by simpa using h, by decide⟩
                · simp at h

/-- Claim C1: the code forwards a wheel-up platform event as Wheel(pt, 0, +1)
and a wheel-down event as Wheel(pt, 0, -1), with magnitude 1.  The Row
contract of src/ui/row.go (and the claim) demand y < 0 for roll up and
y > 0 for roll down, so the vertical sign is inverted relative to the
documented convention; the horizontal mapping (wheel-left x = -1,
wheel-right x = +1) does follow it. -/
theorem C1_wheel_vertical_sign_inverted :
    mouseEvent ⟨10, 20, buttonWheelUp, MouseDir.dirStep⟩
      = [Call.wheel ⟨10, 20⟩ 0 1]
  ∧ mouseEvent ⟨10, 20, buttonWheelDown, MouseDir.dirStep⟩
      = [Call.wheel ⟨10, 20⟩ 0 (-1)]
  ∧ mouseEvent ⟨10, 20, buttonWheelLeft, MouseDir.dirStep⟩
      = [Call.wheel ⟨10, 20⟩ (-1) 0]
  ∧ mouseEvent ⟨10, 20, buttonWheelRight, MouseDir.dirStep⟩
      = [Call.wheel ⟨10, 20⟩ 1 0] := by decide

/-- Claim C9, counterexample: a pointer event with direction step whose
button is the wheel-up button is dispatched as a single Wheel call, not as
two Click calls, because the Go switch tests the wheel buttons before the
direction.  (The platform delivers every wheel step with direction step, so
this input is the common wheel case, not a corner.) -/
theorem C9_counterexample :
    mouseEvent ⟨3, 4, buttonWheelUp, MouseDir.dirStep⟩
      = [Call.wheel ⟨3, 4⟩ 0 1] := by decide

/-- Claim C9, amended: a pointer event with direction step whose button is
none of the four wheel buttons is dispatched as a press Click(pt, b)
immediately followed by a release Click(pt, -b), at the same point and with
the same button magnitude, with nothing in between. -/
theorem C9_step_two_clicks (e : MouseEvent)
    (hd : e.direction = MouseDir.dirStep)
    (h1 : e.button ≠ buttonWheelUp) (h2 : e.button ≠ buttonWheelDown)
    (h3 : e.button ≠ buttonWheelLeft) (h4 : e.button ≠ buttonWheelRight) :
    mouseEvent e
      = [Call.click ⟨e.x, e.y⟩ e.button, Call.click ⟨e.x, e.y⟩ (-e.button)] := by
  rcases e with ⟨x, y, b, d⟩
  simp only at hd h1 h2 h3 h4
  subst hd
  simp [mouseEvent, h1, h2, h3, h4]

/-- Witness for C9_step_two_clicks at a concrete left-button step event. -/
theorem C9_step_two_clicks_witness :
    mouseEvent ⟨5, 6, buttonLeft, MouseDir.dirStep⟩
      = [Call.click ⟨5, 6⟩ buttonLeft, Call.click ⟨5, 6⟩ (-buttonLeft)] :=
  C9_step_two_clicks ⟨5, 6, buttonLeft, MouseDir.dirStep⟩ rfl
    (by decide) (by decide) (by decide) (by decide)

/-- Whether a call is a Mod call. -/
def isModCall : Call → Bool
  | Call.mod _ => true
  | _ => false

/-- dirKey forwards either nothing or a single Dir call. -/
theorem dirKey_cases (e : KeyEvent) :
    dirKey e = [] ∨ ∃ x y, dirKey e = [Call.dir x y] := by
  unfold dirKey
  repeat' split
  all_goals first
    | (left; rfl)
    | (right; exact ⟨_, _, rfl⟩)

/-- modKey leaves the state unchanged or replaces it by the whole newly
computed modifier vector. -/
theorem modKey_result (mods : Mods) (e : KeyEvent) :
    (modKey mods e).1 = newMods e ∨ (modKey mods e).1 = mods := by
  simp only [modKey]
  repeat' split
  all_goals first | (left; rfl) | (right; rfl)

/-- normDir changes only the direction field. -/
theorem normDir_fields (e : KeyEvent) :
    (normDir e).rune = e.rune ∧ (normDir e).code = e.code ∧
    (normDir e).modifiers = e.modifiers := by
  unfold normDir
  split <;> exact ⟨rfl, rfl, rfl⟩

/-- normDir on a release leaves the event unchanged. -/
theorem normDir_release (e : KeyEvent) (h : e.direction = KeyDir.dirRelease) :
    normDir e = e := by
  unfold normDir
  rw [if_neg]
  rw [h]
  simp

/-- rewriteRune changes only the rune field. -/
theorem rewriteRune_fields (e : KeyEvent) :
    (rewriteRune e).code = e.code ∧ (rewriteRune e).modifiers = e.modifiers ∧
    (rewriteRune e).direction = e.direction := by
  unfold rewriteRune
  repeat' split
  all_goals exact ⟨rfl, rfl, rfl⟩

/-- A key event is dispatched along one of four paths: nothing, a single
Dir call, a single positive Rune call (all three leaving the modifier state
unchanged), or a modKey invocation on an event carrying the same modifier
bitmask. -/
theorem keyEvent_paths (mods : Mods) (e : KeyEvent) :
    keyEvent mods e = (mods, [])
  ∨ (∃ x y, keyEvent mods e = (mods, [Call.dir x y]))
  ∨ (∃ r, 0 < r ∧ keyEvent mods e = (mods, [Call.rune r]))
  ∨ (∃ e2, e2.modifiers = e.modifiers ∧ keyEvent mods e = modKey mods e2) := by
  simp only [keyEvent]
  split
  · rcases dirKey_cases (normDir e) with h | ⟨x, y, h⟩
    · exact Or.inl (by rw [h])
    · exact Or.inr (Or.inl ⟨x, y, by rw [h]⟩)
  · split
    · split
      · exact Or.inr (Or.inr (Or.inl ⟨_, by assumption, rfl⟩))
      · exact Or.inl rfl
    · refine Or.inr (Or.inr (Or.inr ⟨rewriteRune (normDir e), ?_, rfl⟩))
      rw [(rewriteRune_fields (normDir e)).2.1, (normDir_fields e).2.2]

/-- normDir of an event that is already a press is the event itself. -/
theorem normDir_press (e : KeyEvent) (h : e.direction = KeyDir.dirPress) :
    normDir e = e := by
  unfold normDir
  rw [if_neg]
  rw [h]
  simp

/-- normDir of an event with no direction sets the press direction. -/
theorem normDir_none (e : KeyEvent) (h : e.direction = KeyDir.dirNone) :
    normDir e = { e with direction := KeyDir.dirPress } := by
  unfold normDir
  rw [if_pos h]

/-- On a press or no-direction event, normDir yields a press. -/
theorem normDir_direction (e : KeyEvent)
    (h : e.direction = KeyDir.dirPress ∨ e.direction = KeyDir.dirNone) :
    (normDir e).direction = KeyDir.dirPress := by
  rcases h with h | h
  · rw [normDir_press e h, h]
  · rw [normDir_none e h]

/-- rewriteRune keeps the rune positive. -/
theorem rewriteRune_pos (e : KeyEvent) (h : 0 < e.rune) :
    0 < (rewriteRune e).rune := by
  unfold rewriteRune
  repeat' split
  all_goals simp_all

/-- rewriteRune on a backspace event. -/
theorem rewriteRune_backspace (e : KeyEvent) (h : e.code = codeDeleteBackspace) :
    rewriteRune e = { e with rune := 8 } := by
  unfold rewriteRune
  rw [if_pos h]

/-- rewriteRune on a forward-delete event. -/
theorem rewriteRune_delete (e : KeyEvent) (h : e.code = codeDeleteForward) :
    rewriteRune e = { e with rune := 127 } := by
  unfold rewriteRune
  rw [if_neg, if_pos h]
  rw [h]
  decide

/-- rewriteRune on a carriage-return event that is not a delete key. -/
theorem rewriteRune_cr (e : KeyEvent) (h1 : e.code ≠ codeDeleteBackspace)
    (h2 : e.code ≠ codeDeleteForward) (h3 : e.rune = 13) :
    rewriteRune e = { e with rune := 10 } := by
  unfold rewriteRune
  rw [if_neg h1, if_neg h2, if_pos h3]

/-- dirKey of an event whose code is not a directional code is empty. -/
theorem dirKey_nil (e : KeyEvent) (h : dirKeyCode e.code = false) :
    dirKey e = [] := by
  unfold dirKeyCode at h
  unfold dirKey
  repeat' split
  all_goals simp_all

/-- On a release event, keyEvent forwards nothing or goes to modKey. -/
theorem keyEvent_release_calls (mods : Mods) (e : KeyEvent)
    (h : e.direction = KeyDir.dirRelease) :
    keyEvent mods e = (mods, [])
  ∨ keyEvent mods e = modKey mods (rewriteRune e) := by
  simp only [keyEvent]
  rw [normDir_release e h]
  rw [if_neg (by rw [h]; simp)]
  split
  · rw [if_neg]
    · exact Or.inl rfl
    · rw [(rewriteRune_fields e).2.2, h]
      simp
  · exact Or.inr rfl

/-- Every Dir call forwarded by keyEvent comes from dirKey on the
direction-normalized event. -/
theorem keyEvent_dir_mem (mods : Mods) (e : KeyEvent) (x y : Int)
    (h : Call.dir x y ∈ (keyEvent mods e).2) :
    Call.dir x y ∈ dirKey (normDir e) := by
  simp only [keyEvent] at h
  split at h
  · exact h
  · split at h
    · split at h <;> simp at h
    · obtain ⟨mm, hc⟩ := modKey_mem_mod _ _ _ h
      simp at hc

/-- On a press or no-direction event with a directional code, keyEvent
dispatches through dirKey. -/
theorem keyEvent_press_dir (mods : Mods) (e : KeyEvent)
    (hd : e.direction = KeyDir.dirPress ∨ e.direction = KeyDir.dirNone)
    (hc : dirKeyCode e.code = true) :
    keyEvent mods e = (mods, dirKey (normDir e)) := by
  simp only [keyEvent]
  rw [if_pos]
  exact ⟨normDir_direction e hd, by rw [(normDir_fields e).2.1]; exact hc⟩

/-- The new modifier vector depends only on the modifiers bitmask. -/
theorem newMods_congr (e1 e2 : KeyEvent) (h : e1.modifiers = e2.modifiers) :
    newMods e1 = newMods e2 := by
  simp [newMods, h]

/-- modKey forwards either nothing or a single Mod call. -/
theorem modKey_calls_cases (mods : Mods) (e : KeyEvent) :
    (modKey mods e).2 = [] ∨ ∃ m, (modKey mods e).2 = [Call.mod m] := by
  simp only [modKey]
  repeat' split
  all_goals first
    | (left; rfl)
    | (right; exact ⟨_, rfl⟩)

set_option maxHeartbeats 1600000 in
/-- The full behavior of one modKey invocation from a state whose unused
flag 0 is clear: the state either stays or becomes the whole new vector; a
forwarded Mod call encodes the lowest-index changed flag in its absolute
value with the sign giving the new value of that flag. -/
theorem modKey_spec (mods : Mods) (e : KeyEvent) (h0 : mods.m0 = false) :
    (modKey mods e).1.m0 = false
  ∧ (∀ m, Call.mod m ∈ (modKey mods e).2 →
        (modKey mods e).1 = newMods e
      ∧ 1 ≤ m.natAbs ∧ m.natAbs ≤ 3
      ∧ (newMods e).get m.natAbs = decide (0 < m)
      ∧ mods.get m.natAbs = decide (m < 0)
      ∧ (m.natAbs = 2 → (newMods e).m1 = mods.m1)
      ∧ (m.natAbs = 3 → (newMods e).m1 = mods.m1 ∧ (newMods e).m2 = mods.m2)) := by
  obtain ⟨b0, b1, b2, b3⟩ := mods
  simp only at h0
  subst h0
  have h00 : (newMods e).m0 = false := rfl
  simp only [modKey]
  generalize hq : newMods e = nm at h00 ⊢
  obtain ⟨a0, a1, a2, a3⟩ := nm
  simp only at h00
  subst h00
  cases a1 <;> cases a2 <;> cases a3 <;> cases b1 <;> cases b2 <;> cases b3 <;>
    simp [Mods.get]

/-- dirKey depends only on the key code. -/
theorem dirKey_code (e : KeyEvent) (c : Nat) (h : e.code = c) :
    dirKey e = dirKey ⟨0, c, 0, KeyDir.dirPress⟩ := by
  unfold dirKey
  rw [h]

/-- Claim C2, counterexample: from the all-false initial state a shift
press yields state (F,T,F,F) with the single call Mod(1); a following key
event whose bitmask reports only alt replaces the state wholesale by
(F,F,T,F), so the shift flag and the alt flag both change during one key
event while the only forwarded call, Mod(-1), encodes the shift release.
This refutes the claim that at most one flag of the 4-flag modifier state
changes per key event. -/
theorem C2_counterexample :
    (keyEvent mods0 ⟨-1, codeLeftShift, modShift, KeyDir.dirPress⟩).1
      = ⟨false, true, false, false⟩
  ∧ (keyEvent mods0 ⟨-1, codeLeftShift, modShift, KeyDir.dirPress⟩).2
      = [Call.mod 1]
  ∧ (keyEvent ⟨false, true, false, false⟩
        ⟨-1, codeLeftAlt, modAlt, KeyDir.dirPress⟩).1
      = ⟨false, false, true, false⟩
  ∧ (keyEvent ⟨false, true, false, false⟩
        ⟨-1, codeLeftAlt, modAlt, KeyDir.dirPress⟩).2
      = [Call.mod (-1)] := by decide

/-- Claim C2, amended: the modifier state starts all-false and flag 0 stays
clear; each key event forwards at most one Mod call; a forwarded Mod(m)
encodes in its absolute value (1 = shift, 2 = alt, 3 = control/meta) the
lowest-index flag whose newly reported value differs from the stored one,
with the sign of m giving the new value of that flag (positive press,
negative release); the state is then replaced by the whole newly reported
vector, so flags above that index may change in the same event without a
Mod call of their own; and a key event that reports a modifier already set
leaves that modifier set. -/
theorem C2_modifier_transitions (mods : Mods) (e : KeyEvent)
    (h0 : mods.m0 = false) :
    (mods0.m0 = false ∧ mods0.m1 = false ∧ mods0.m2 = false ∧ mods0.m3 = false)
  ∧ (keyEvent mods e).1.m0 = false
  ∧ ((keyEvent mods e).2.filter isModCall).length ≤ 1
  ∧ (∀ m, Call.mod m ∈ (keyEvent mods e).2 →
        (keyEvent mods e).1 = newMods e
      ∧ 1 ≤ m.natAbs ∧ m.natAbs ≤ 3
      ∧ (newMods e).get m.natAbs = decide (0 < m)
      ∧ mods.get m.natAbs = decide (m < 0)
      ∧ (m.natAbs = 2 → (newMods e).m1 = mods.m1)
      ∧ (m.natAbs = 3 → (newMods e).m1 = mods.m1 ∧ (newMods e).m2 = mods.m2))
  ∧ (∀ i, mods.get i = true → (newMods e).get i = true →
        (keyEvent mods e).1.get i = true) := by
  refine ⟨⟨rfl, rfl, rfl, rfl⟩, ?_⟩
  rcases keyEvent_paths mods e with h | ⟨x, y, h⟩ | ⟨r, hr, h⟩ | ⟨e2, hm, h⟩
  · rw [h]
    exact ⟨h0, by simp, by simp, fun i h1 _ => h1⟩
  · rw [h]
    exact ⟨h0, by simp [isModCall], by simp, fun i h1 _ => h1⟩
  · rw [h]
    exact ⟨h0, by simp [isModCall], by simp, fun i h1 _ => h1⟩
  · have hnm : newMods e2 = newMods e := newMods_congr e2 e hm
    obtain ⟨hsm0, hspec⟩ := modKey_spec mods e2 h0
    rw [h]
    refine ⟨hsm0, ?_, ?_, ?_⟩
    · rcases modKey_calls_cases mods e2 with hc | ⟨m, hc⟩ <;> rw [hc] <;>
        simp [isModCall]
    · intro m hmem
      obtain ⟨hst, hn1, hn3, hget, hold, hlow2, hlow3⟩ := hspec m hmem
      rw [hnm] at hst hget hlow2 hlow3
      exact ⟨hst, hn1, hn3, hget, hold, hlow2, hlow3⟩
    · intro i h1 h2
      rcases modKey_result mods e2 with hr2 | hr2 <;> rw [hr2]
      · rw [hnm]
        exact h2
      · exact h1

/-- Witness for C2_modifier_transitions at the all-false state and a shift
press. -/
theorem C2_modifier_transitions_witness :
    (mods0.m0 = false ∧ mods0.m1 = false ∧ mods0.m2 = false ∧ mods0.m3 = false)
  ∧ (keyEvent mods0 ⟨-1, codeLeftShift, modShift, KeyDir.dirPress⟩).1.m0 = false
  ∧ ((keyEvent mods0 ⟨-1, codeLeftShift, modShift, KeyDir.dirPress⟩).2.filter
      isModCall).length ≤ 1
  ∧ (∀ m, Call.mod m ∈
        (keyEvent mods0 ⟨-1, codeLeftShift, modShift, KeyDir.dirPress⟩).2 →
        (keyEvent mods0 ⟨-1, codeLeftShift, modShift, KeyDir.dirPress⟩).1
          = newMods ⟨-1, codeLeftShift, modShift, KeyDir.dirPress⟩
      ∧ 1 ≤ m.natAbs ∧ m.natAbs ≤ 3
      ∧ (newMods ⟨-1, codeLeftShift, modShift, KeyDir.dirPress⟩).get m.natAbs
          = decide (0 < m)
      ∧ mods0.get m.natAbs = decide (m < 0)
      ∧ (m.natAbs = 2 →
          (newMods ⟨-1, codeLeftShift, modShift, KeyDir.dirPress⟩).m1 = mods0.m1)
      ∧ (m.natAbs = 3 →
          (newMods ⟨-1, codeLeftShift, modShift, KeyDir.dirPress⟩).m1 = mods0.m1
        ∧ (newMods ⟨-1, codeLeftShift, modShift, KeyDir.dirPress⟩).m2 = mods0.m2))
  ∧ (∀ i, mods0.get i = true →
        (newMods ⟨-1, codeLeftShift, modShift, KeyDir.dirPress⟩).get i = true →
        (keyEvent mods0 ⟨-1, codeLeftShift, modShift, KeyDir.dirPress⟩).1.get i
          = true) :=
  C2_modifier_transitions mods0 ⟨-1, codeLeftShift, modShift, KeyDir.dirPress⟩ rfl

/-- Claim C3: directional dispatch.  A Dir call always has exactly one of
x and y non-zero; arrow keys map to the unit value in the sign convention
(negative left/up), PageUp and PageDown map to y = -2 and +2, Home to the
minimum 16-bit signed integer (-32768) and End to the maximum (32767), and
a release event never produces a Dir call (a no-direction event counts as a
press). -/
theorem C3_dir_navigation (mods : Mods) (e : KeyEvent) :
    (e.direction = KeyDir.dirRelease → ∀ x y, Call.dir x y ∉ (keyEvent mods e).2)
  ∧ (∀ x y, Call.dir x y ∈ (keyEvent mods e).2 →
        (x = 0 ∧ y ≠ 0) ∨ (x ≠ 0 ∧ y = 0))
  ∧ ((e.direction = KeyDir.dirPress ∨ e.direction = KeyDir.dirNone) →
        (e.code = codeUpArrow → (keyEvent mods e).2 = [Call.dir 0 (-1)])
      ∧ (e.code = codeDownArrow → (keyEvent mods e).2 = [Call.dir 0 1])
      ∧ (e.code = codeLeftArrow → (keyEvent mods e).2 = [Call.dir (-1) 0])
      ∧ (e.code = codeRightArrow → (keyEvent mods e).2 = [Call.dir 1 0])
      ∧ (e.code = codePageUp → (keyEvent mods e).2 = [Call.dir 0 (-2)])
      ∧ (e.code = codePageDown → (keyEvent mods e).2 = [Call.dir 0 2])
      ∧ (e.code = codeHome → (keyEvent mods e).2 = [Call.dir 0 (-32768)])
      ∧ (e.code = codeEnd → (keyEvent mods e).2 = [Call.dir 0 32767])) := by
  refine ⟨?_, ?_, ?_⟩
  · intro hrel x y hmem
    rcases keyEvent_release_calls mods e hrel with h | h <;> rw [h] at hmem
    · simp at hmem
    · obtain ⟨mm, hc⟩ := modKey_mem_mod _ _ _ hmem
      simp at hc
  · intro x y hmem
    obtain ⟨x2, y2, hc, hside⟩ :=
      dirKey_mem_dir _ _ (keyEvent_dir_mem mods e x y hmem)
    injection hc with hx hy
    subst hx
    subst hy
    exact hside
  · intro hd
    refine ⟨?_, ?_, ?_, ?_, ?_, ?_, ?_, ?_⟩ <;> intro hc <;>
      rw [keyEvent_press_dir mods e hd (by rw [hc]; decide),
        dirKey_code (normDir e) e.code (normDir_fields e).2.1, hc] <;>
      simp [dirKey, codeUpArrow, codeDownArrow, codeLeftArrow, codeRightArrow,
        codePageUp, codePageDown, codeHome, codeEnd]

/-- Witness for C3_dir_navigation at concrete arrow, page, home and end
presses from the all-false modifier state. -/
theorem C3_dir_navigation_witness :
    (keyEvent mods0 ⟨-1, codeUpArrow, 0, KeyDir.dirPress⟩).2 = [Call.dir 0 (-1)]
  ∧ (keyEvent mods0 ⟨-1, codePageDown, 0, KeyDir.dirPress⟩).2 = [Call.dir 0 2]
  ∧ (keyEvent mods0 ⟨-1, codeHome, 0, KeyDir.dirPress⟩).2 = [Call.dir 0 (-32768)]
  ∧ (keyEvent mods0 ⟨-1, codeEnd, 0, KeyDir.dirPress⟩).2 = [Call.dir 0 32767] :=
  ⟨((C3_dir_navigation mods0 ⟨-1, codeUpArrow, 0, KeyDir.dirPress⟩).2.2
      (Or.inl rfl)).1 rfl,
   ((C3_dir_navigation mods0 ⟨-1, codePageDown, 0, KeyDir.dirPress⟩).2.2
      (Or.inl rfl)).2.2.2.2.2.1 rfl,
   ((C3_dir_navigation mods0 ⟨-1, codeHome, 0, KeyDir.dirPress⟩).2.2
      (Or.inl rfl)).2.2.2.2.2.2.1 rfl,
   ((C3_dir_navigation mods0 ⟨-1, codeEnd, 0, KeyDir.dirPress⟩).2.2
      (Or.inl rfl)).2.2.2.2.2.2.2 rfl⟩

/-- Claim C6: backspace and forward-delete presses are delivered as Rune
calls carrying the reserved control runes 8 (backslash-b) and 127 (0x7f),
and events with those key codes are never dispatched as Dir calls. -/
theorem C6_delete_control_runes (mods : Mods) (e : KeyEvent) :
    ((e.direction = KeyDir.dirPress ∨ e.direction = KeyDir.dirNone) →
        (e.code = codeDeleteBackspace → (keyEvent mods e).2 = [Call.rune 8])
      ∧ (e.code = codeDeleteForward → (keyEvent mods e).2 = [Call.rune 127]))
  ∧ ((e.code = codeDeleteBackspace ∨ e.code = codeDeleteForward) →
      ∀ x y, Call.dir x y ∉ (keyEvent mods e).2) := by
  constructor
  · intro hd
    have hdir := normDir_direction e hd
    constructor <;> intro hc
    · have hc2 : (normDir e).code = codeDeleteBackspace := by
        rw [(normDir_fields e).2.1]
        exact hc
      simp only [keyEvent]
      rw [if_neg (by rw [hc2]; exact fun hand => absurd hand.2 (by decide))]
      rw [rewriteRune_backspace _ hc2]
      simp [hdir]
    · have hc2 : (normDir e).code = codeDeleteForward := by
        rw [(normDir_fields e).2.1]
        exact hc
      simp only [keyEvent]
      rw [if_neg (by rw [hc2]; exact fun hand => absurd hand.2 (by decide))]
      rw [rewriteRune_delete _ hc2]
      simp [hdir]
  · intro hcode x y hmem
    have h2 := keyEvent_dir_mem mods e x y hmem
    rw [dirKey_nil] at h2
    · simp at h2
    · rw [(normDir_fields e).2.1]
      rcases hcode with h | h <;> rw [h] <;> decide

/-- Witness for C6_delete_control_runes at concrete backspace and
forward-delete presses. -/
theorem C6_delete_control_runes_witness :
    (keyEvent mods0 ⟨8, codeDeleteBackspace, 0, KeyDir.dirPress⟩).2
      = [Call.rune 8]
  ∧ (keyEvent mods0 ⟨0, codeDeleteForward, 0, KeyDir.dirPress⟩).2
      = [Call.rune 127] :=
  ⟨((C6_delete_control_runes mods0
      ⟨8, codeDeleteBackspace, 0, KeyDir.dirPress⟩).1 (Or.inl rfl)).1 rfl,
   ((C6_delete_control_runes mods0
      ⟨0, codeDeleteForward, 0, KeyDir.dirPress⟩).1 (Or.inl rfl)).2 rfl⟩

/-- Claim C10: Rune is never invoked with a non-positive argument; a
release event carrying a positive rune is dropped entirely (no call, state
unchanged); an event with no direction is dispatched exactly like a press;
and a carriage-return press (rune 13) on an ordinary key is delivered to
Rune as newline (10). -/
theorem C10_rune_positivity (mods : Mods) (e : KeyEvent) :
    (∀ r, Call.rune r ∈ (keyEvent mods e).2 → 0 < r)
  ∧ (e.direction = KeyDir.dirRelease → 0 < e.rune →
      keyEvent mods e = (mods, []))
  ∧ (e.direction = KeyDir.dirNone →
      keyEvent mods e = keyEvent mods { e with direction := KeyDir.dirPress })
  ∧ (e.direction = KeyDir.dirPress → e.rune = 13 →
      e.code ≠ codeDeleteBackspace → e.code ≠ codeDeleteForward →
      dirKeyCode e.code = false →
      (keyEvent mods e).2 = [Call.rune 10]) := by
  refine ⟨?_, ?_, ?_, ?_⟩
  · intro r hmem
    rcases keyEvent_paths mods e with h | ⟨x, y, h⟩ | ⟨r2, hr2, h⟩ | ⟨e2, hm, h⟩ <;>
      rw [h] at hmem
    · simp at hmem
    · simp at hmem
    · simp at hmem
      rw [hmem]
      exact hr2
    · obtain ⟨mm, hc⟩ := modKey_mem_mod _ _ _ hmem
      simp at hc
  · intro hrel hpos
    simp only [keyEvent]
    rw [normDir_release e hrel]
    rw [if_neg (by rw [hrel]; simp)]
    rw [if_pos (rewriteRune_pos e hpos)]
    rw [if_neg (by rw [(rewriteRune_fields e).2.2, hrel]; simp)]
  · intro hnone
    simp only [keyEvent]
    rw [normDir_none e hnone]
    rw [normDir_press { e with direction := KeyDir.dirPress } rfl]
  · intro hpress h13 hbs hdf hdk
    simp only [keyEvent]
    rw [normDir_press e hpress]
    rw [if_neg (by intro hand; have h2 := hand.2; rw [hdk] at h2; simp at h2)]
    rw [rewriteRune_cr e hbs hdf h13]
    simp [hpress]

/-- Witness for C10_rune_positivity: a released letter key is dropped and a
carriage-return press is delivered as newline. -/
theorem C10_rune_positivity_witness :
    keyEvent mods0 ⟨97, 4, 0, KeyDir.dirRelease⟩ = (mods0, [])
  ∧ (keyEvent mods0 ⟨13, codeReturnEnter, 0, KeyDir.dirPress⟩).2
      = [Call.rune 10] :=
  ⟨(C10_rune_positivity mods0 ⟨97, 4, 0, KeyDir.dirRelease⟩).2.1 rfl
      (by decide),
   (C10_rune_positivity mods0
      ⟨13, codeReturnEnter, 0, KeyDir.dirPress⟩).2.2.2 rfl rfl
      (by decide) (by decide) (by decide)⟩

/-! Lemmas on the poll step function. -/

/-- Any event other than a paint preserves a raised dirty flag. -/
theorem step_not_paint_dirty (s : PollState) (e : Event) (he : e ≠ Event.paint)
    (hd : s.dirty = true) : (step s e).1.dirty = true := by
  cases e
  case paint => exact absurd rfl he
  all_goals simp only [step]
  all_goals repeat' split
  all_goals first | exact hd | rfl

/-- Any event other than done leaves the done channel open. -/
theorem step_not_done_doneClosed (s : PollState) (e : Event)
    (he : e ≠ Event.done) (hd : s.doneClosed = false) :
    (step s e).1.doneClosed = false := by
  cases e
  case done => exact absurd rfl he
  all_goals simp only [step]
  all_goals repeat' split
  all_goals exact hd

/-- Whether an event is a resize notification. -/
def isSizeEvent : Event → Bool
  | Event.size _ => true
  | _ => false

/-- Any event other than a resize keeps a cleared dirty flag cleared. -/
theorem step_no_size_clean (s : PollState) (e : Event)
    (hsz : isSizeEvent e = false) (hd : s.dirty = false) :
    (step s e).1.dirty = false := by
  cases e
  case size p => simp [isSizeEvent] at hsz
  case paint => exact rfl
  all_goals simp only [step]
  all_goals repeat' split
  all_goals exact hd

/-- While the loop is live, run processes the head event first and appends
the remaining actions after its own, in arrival order. -/
theorem run_cons (s : PollState) (e : Event) (es : List Event)
    (h : s.doneClosed = false) :
    run s (e :: es)
      = ((run (step s e).1 es).1,
         (step s e).2 ++ (run (step s e).1 es).2) := by
  simp [run, h]

/-- A raised dirty flag survives any stretch of events without a paint or a
done notification. -/
theorem run_keeps_dirty (s : PollState) (es : List Event)
    (h : ∀ e ∈ es, e ≠ Event.paint ∧ e ≠ Event.done)
    (hd : s.dirty = true) (hdc : s.doneClosed = false) :
    (run s es).1.dirty = true ∧ (run s es).1.doneClosed = false := by
  induction es generalizing s with
  | nil => exact ⟨hd, hdc⟩
  | cons e es ih =>
    rw [run_cons s e es hdc]
    obtain ⟨hp, hdn⟩ := h e (List.mem_cons_self e es)
    exact ih (step s e).1 (fun e2 he2 => h e2 (List.mem_cons_of_mem e he2))
      (step_not_paint_dirty s e hp hd) (step_not_done_doneClosed s e hdn hdc)

/-- A cleared dirty flag survives any stretch of events without a resize or
a done notification. -/
theorem run_keeps_clean (s : PollState) (es : List Event)
    (h : ∀ e ∈ es, isSizeEvent e = false ∧ e ≠ Event.done)
    (hd : s.dirty = false) (hdc : s.doneClosed = false) :
    (run s es).1.dirty = false ∧ (run s es).1.doneClosed = false := by
  induction es generalizing s with
  | nil => exact ⟨hd, hdc⟩
  | cons e es ih =>
    rw [run_cons s e es hdc]
    obtain ⟨hp, hdn⟩ := h e (List.mem_cons_self e es)
    exact ih (step s e).1 (fun e2 he2 => h e2 (List.mem_cons_of_mem e he2))
      (step_no_size_clean s e hp hd) (step_not_done_doneClosed s e hdn hdc)

/-- A paint step draws with the current dirty flag, then clears it,
uploads and publishes. -/
theorem step_paint (s : PollState) :
    step s Event.paint
      = ({ s with dirty := false },
         [Act.call (Call.draw s.dirty), Act.upload, Act.publish]) := rfl

/-- The effects of a non-zero resize step: the new size is stored, the
dirty flag raised, Win.Resize forwarded, and no Draw issued. -/
theorem step_size_effects (s : PollState) (sz : Point) (hsz : sz ≠ zp) :
    (step s (Event.size sz)).1.dirty = true
  ∧ (step s (Event.size sz)).1.size = sz
  ∧ Act.call (Call.resize sz) ∈ (step s (Event.size sz)).2
  ∧ (∀ d, Act.call (Call.draw d) ∉ (step s (Event.size sz)).2) := by
  simp only [step]
  rw [if_neg hsz]
  split
  · exact ⟨rfl, rfl, by simp, by simp⟩
  · exact ⟨rfl, rfl, by simp, by simp⟩

/-- Claim C4: when a periodic tick notification is processed, a paint
request is enqueued if and only if the widget tree's Tick() returned true,
and nothing else happens (no state change, no other action). -/
theorem C4_tick_requests_paint (s : PollState) (b : Bool) :
    (step s (Event.tick b)).2 = (if b then [Act.sendPaint] else [])
  ∧ (Act.sendPaint ∈ (step s (Event.tick b)).2 ↔ b = true)
  ∧ (step s (Event.tick b)).1 = s := by
  cases b <;> simp [step]

/-- Claim C5, counterexample: the resize size (0, 100) has zero area (it is
degenerate), yet the loop does not begin teardown on it: no cancel action
is issued and the resize is applied normally (the stored size becomes
(0, 100) and Win.Resize is forwarded).  Only the exact zero point (0, 0)
triggers teardown. -/
theorem C5_counterexample :
    ((0 : Int) * 100 = 0)
  ∧ Act.cancel ∉ (step (initState ⟨800, 600⟩) (Event.size ⟨0, 100⟩)).2
  ∧ (step (initState ⟨800, 600⟩) (Event.size ⟨0, 100⟩)).1.cancelled = false
  ∧ (step (initState ⟨800, 600⟩) (Event.size ⟨0, 100⟩)).1.size = ⟨0, 100⟩
  ∧ Act.call (Call.resize ⟨0, 100⟩)
      ∈ (step (initState ⟨800, 600⟩) (Event.size ⟨0, 100⟩)).2 := by decide

/-- Claim C5, amended: a resize event whose size is exactly the zero point
(both dimensions zero) is treated as a signal to begin teardown — the
driving context is cancelled and neither the resize nor an error is
raised — while a resize of any other size, including degenerate zero-area
sizes with one non-zero dimension, is applied normally; the terminal done
notification then releases the buffer, the texture and the window and
closes the done channel. -/
theorem C5_zero_size_teardown (s : PollState) (sz : Point) :
    (sz = zp →
        step s (Event.size sz) = ({ s with cancelled := true }, [Act.cancel]))
  ∧ (sz ≠ zp →
        Act.cancel ∉ (step s (Event.size sz)).2
      ∧ (step s (Event.size sz)).1.cancelled = s.cancelled
      ∧ (step s (Event.size sz)).1.size = sz
      ∧ (step s (Event.size sz)).1.dirty = true
      ∧ Act.call (Call.resize sz) ∈ (step s (Event.size sz)).2)
  ∧ (step s Event.done).2
      = [Act.releaseBuf, Act.releaseTex, Act.releaseWindow, Act.closeDone] := by
  refine ⟨?_, ?_, rfl⟩
  · intro h
    simp [step, h]
  · intro h
    simp only [step]
    rw [if_neg h]
    split
    · exact ⟨by simp, rfl, rfl, rfl, by simp⟩
    · exact ⟨by simp, rfl, rfl, rfl, by simp⟩

/-- Witness for C5_zero_size_teardown: the zero point cancels; a normal
size is applied. -/
theorem C5_zero_size_teardown_witness :
    step (initState ⟨800, 600⟩) (Event.size zp)
      = ({ initState ⟨800, 600⟩ with cancelled := true }, [Act.cancel])
  ∧ (step (initState ⟨800, 600⟩) (Event.size ⟨400, 300⟩)).1.size = ⟨400, 300⟩ :=
  ⟨(C5_zero_size_teardown (initState ⟨800, 600⟩) zp).1 rfl,
   ((C5_zero_size_teardown (initState ⟨800, 600⟩) ⟨400, 300⟩).2.1
      (by decide)).2.2.1⟩

/-- Claim C7: on a non-zero resize, the pixel buffer and texture pair is
reallocated exactly when the requested size exceeds the current texture
bounds in either dimension; in that case the old texture and buffer are
released first and the new pair is allocated at twice the requested size;
when the requested size fits, nothing is released or allocated and the
capacities are kept (no shrinking). -/
theorem C7_capacity_growth (s : PollState) (sz : Point) (h : sz ≠ zp) :
    ((s.texCap.x < sz.x ∨ s.texCap.y < sz.y) →
        (step s (Event.size sz)).2
          = [Act.call (Call.resize sz), Act.releaseTex, Act.releaseBuf,
             Act.alloc (sz.mul 2)]
      ∧ (step s (Event.size sz)).1.texCap = sz.mul 2
      ∧ (step s (Event.size sz)).1.bufCap = sz.mul 2)
  ∧ (¬(s.texCap.x < sz.x ∨ s.texCap.y < sz.y) →
        (step s (Event.size sz)).2 = [Act.call (Call.resize sz)]
      ∧ (step s (Event.size sz)).1.texCap = s.texCap
      ∧ (step s (Event.size sz)).1.bufCap = s.bufCap) := by
  constructor <;> intro hc <;> simp only [step] <;> rw [if_neg h]
  · rw [if_pos hc]
    exact ⟨rfl, rfl, rfl⟩
  · rw [if_neg hc]
    exact ⟨rfl, rfl, rfl⟩

/-- Witness for C7_capacity_growth: growing past a 100 by 100 texture
reallocates at twice the requested size; a smaller request does not. -/
theorem C7_capacity_growth_witness :
    (step (initState ⟨100, 100⟩) (Event.size ⟨150, 50⟩)).2
      = [Act.call (Call.resize ⟨150, 50⟩), Act.releaseTex, Act.releaseBuf,
         Act.alloc (Point.mul ⟨150, 50⟩ 2)]
  ∧ (step (initState ⟨100, 100⟩) (Event.size ⟨90, 90⟩)).2
      = [Act.call (Call.resize ⟨90, 90⟩)] :=
  ⟨((C7_capacity_growth (initState ⟨100, 100⟩) ⟨150, 50⟩ (by decide)).1
      (by decide)).1,
   ((C7_capacity_growth (initState ⟨100, 100⟩) ⟨90, 90⟩ (by decide)).2
      (by decide)).1⟩

/-- Claim C8: the loop processes events strictly in arrival order (run
handles the head event fully before the rest and concatenates the actions
in order); a non-zero resize stores the size, forwards Win.Resize and
raises the dirty flag within its own step, issuing no Draw; the first paint
event processed after the resize draws with dirty = true and clears the
flag; and a later paint with no intervening resize draws with
dirty = false. -/
theorem C8_resize_then_paint (s : PollState) (sz : Point) (es es2 : List Event)
    (hsz : sz ≠ zp) (hdc : s.doneClosed = false)
    (hes : ∀ e ∈ es, e ≠ Event.paint ∧ e ≠ Event.done)
    (hes2 : ∀ e ∈ es2, isSizeEvent e = false ∧ e ≠ Event.done) :
    run s (Event.size sz :: es)
      = ((run (step s (Event.size sz)).1 es).1,
         (step s (Event.size sz)).2 ++ (run (step s (Event.size sz)).1 es).2)
  ∧ (step s (Event.size sz)).1.dirty = true
  ∧ Act.call (Call.resize sz) ∈ (step s (Event.size sz)).2
  ∧ (∀ d, Act.call (Call.draw d) ∉ (step s (Event.size sz)).2)
  ∧ (step (run (step s (Event.size sz)).1 es).1 Event.paint).2
      = [Act.call (Call.draw true), Act.upload, Act.publish]
  ∧ (step (run (step s (Event.size sz)).1 es).1 Event.paint).1.dirty = false
  ∧ (step (run (step (run (step s (Event.size sz)).1 es).1 Event.paint).1
        es2).1 Event.paint).2
      = [Act.call (Call.draw false), Act.upload, Act.publish] := by
  obtain ⟨hd1, hsize1, hres1, hnodraw1⟩ := step_size_effects s sz hsz
  have hdc1 : (step s (Event.size sz)).1.doneClosed = false :=
    step_not_done_doneClosed s (Event.size sz) (by simp) hdc
  obtain ⟨hd2, hdc2⟩ := run_keeps_dirty (step s (Event.size sz)).1 es hes hd1 hdc1
  have hpaint1 : (step (run (step s (Event.size sz)).1 es).1 Event.paint).2
      = [Act.call (Call.draw true), Act.upload, Act.publish] := by
    rw [step_paint, hd2]
  have hd3 : (step (run (step s (Event.size sz)).1 es).1 Event.paint).1.dirty
      = false := rfl
  have hdc3 : (step (run (step s (Event.size sz)).1 es).1 Event.paint).1.doneClosed
      = false :=
    step_not_done_doneClosed _ Event.paint (by simp) hdc2
  obtain ⟨hd4, hdc4⟩ := run_keeps_clean _ es2 hes2 hd3 hdc3
  refine ⟨run_cons s (Event.size sz) es hdc, hd1, hres1, hnodraw1, hpaint1, hd3, ?_⟩
  rw [step_paint, hd4]

/-- Witness for C8_resize_then_paint on a concrete run: a resize followed
by a tick, then two paints with a mouse press in between. -/
theorem C8_resize_then_paint_witness :
    (step (run (step (initState ⟨800, 600⟩) (Event.size ⟨400, 300⟩)).1
        [Event.tick false]).1 Event.paint).2
      = [Act.call (Call.draw true), Act.upload, Act.publish]
  ∧ (step (run (step (run (step (initState ⟨800, 600⟩)
        (Event.size ⟨400, 300⟩)).1 [Event.tick false]).1 Event.paint).1
        [Event.mouse ⟨1, 2, 1, MouseDir.dirPress⟩]).1 Event.paint).2
      = [Act.call (Call.draw false), Act.upload, Act.publish] :=
  ⟨(C8_resize_then_paint (initState ⟨800, 600⟩) ⟨400, 300⟩ [Event.tick false]
      [Event.mouse ⟨1, 2, 1, MouseDir.dirPress⟩] (by decide) rfl (by decide)
      (by decide)).2.2.2.2.1,
   (C8_resize_then_paint (initState ⟨800, 600⟩) ⟨400, 300⟩ [Event.tick false]
      [Event.mouse ⟨1, 2, 1, MouseDir.dirPress⟩] (by decide) rfl (by decide)
      (by decide)).2.2.2.2.2.2⟩

end T
